import Mathlib

/-
Verification of the UFW worker (src/src/index.js): a shallow embedding of the
request/response firewall pipeline over `List Char` strings, together with
theorems settling the frozen claims about it.

Modelling conventions:
- JS strings are `List Char` (`Str`); `str` converts a Lean string literal.
- The external KV store (`env.UFW_LOGS`) is an association list `Store`;
  TTLs on `put` are dropped (no claim concerns expiry).
- Platform services with no algorithmic content in the source are oracles:
  `JSON.parse` results are passed in already-parsed (`Option _` with `none`
  for a parse failure), and the inbound `new RegExp(pat, 'i')` compiler is a
  parameter `compileI : Str → Option (Str → Bool)` (`none` models a regex
  whose compilation throws; the `i` flag lives inside the oracle).
- The nine outbound `RESPONSE_PATTERNS` regexes are embedded concretely by a
  small matcher (`RItem`/`matchItems`): each of the nine is a sequence of
  literals and character classes with counts, and none of them requires
  backtracking (after every non-final class the following literal starts with
  a character outside the class), so left-to-right greedy matching agrees
  with the JS regex engine on them, including global replacement.
- Fire-and-forget side effects (logBlock, logUsage, webhook alerts) and the
  reads the pipeline performs are recorded in an `Effect` trace so that
  ordering claims ("no upstream call", "not written to the block log") are
  statable; the block-log KV write inside logBlock is represented by the
  `Effect.logBlock` trace entry.
-/

namespace UFW

/-- JS strings are modelled as lists of characters. -/
abbrev Str := List Char

/-- Convert a Lean string literal to the `Str` model. -/
def str (s : String) : Str := s.data

/-- Decidable check that `p` is a prefix of `l` (JS `String.startsWith`). -/
def isPre : Str → Str → Bool
  | [], _ => true
  | _ :: _, [] => false
  | a :: as, b :: bs => a == b && isPre as bs

/-- Decidable substring containment (JS `String.includes`). -/
def occurs (needle : Str) : Str → Bool
  | [] => isPre needle []
  | c :: rest => isPre needle (c :: rest) || occurs needle rest

/-- Fuel-driven worker for `splitOnL`; with fuel at least the length of the
input it performs the leftmost non-overlapping split of JS `String.split`
with a non-empty separator. -/
def splitFuel (sep : Str) : Nat → Str → List Str
  | _, [] => [[]]
  | 0, c :: rest => [c :: rest]
  | fuel + 1, c :: rest =>
    if !sep.isEmpty && isPre sep (c :: rest) then
      [] :: splitFuel sep fuel (rest.drop (sep.length - 1))
    else
      match splitFuel sep fuel rest with
      | [] => [[c]]
      | p :: ps => (c :: p) :: ps

/-- JS `text.split(sep)` for a non-empty separator. -/
def splitOnL (sep l : Str) : List Str := splitFuel sep (l.length + 1) l

/-- JS `pieces.join(sep)`. -/
def joinWith (sep : Str) : List Str → Str
  | [] => []
  | [p] => p
  | p :: q :: ps => p ++ sep ++ joinWith sep (q :: ps)

/-- Digits-only string to number; models `parseInt` on the canonical decimal
strings this worker itself writes into the store. -/
def strToNat? (s : Str) : Option Nat :=
  if s ≠ [] ∧ s.all (fun c => c.isDigit) then
    some (s.foldl (fun acc c => acc * 10 + (c.toNat - ('0').toNat)) 0)
  else none

/-- Decimal rendering of a counter value (JS `String(n)`). -/
def natStr (n : Nat) : Str := (Nat.repr n).data

/-- JS `parseInt(v) || 0` on an optional stored string. -/
def jsCounter (v : Option Str) : Nat :=
  match v with
  | some s => (strToNat? s).getD 0
  | none => 0

/-- JS `parseInt(v) || d` for the rate-limit ceilings: an absent or
non-numeric value and the number 0 (falsy) all fall back to the default. -/
def jsParseIntOrDefault (v : Option Str) (d : Nat) : Nat :=
  match v with
  | some s =>
    (match strToNat? s with
     | some n => if n = 0 then d else n
     | none => d)
  | none => d

/-- JS `headerValue || defaultValue` (null and the empty string are falsy). -/
def jsHeaderOr (v : Option Str) (d : Str) : Str :=
  match v with
  | some s => if s = [] then d else s
  | none => d

/-- External KV store contents (`env.UFW_LOGS`), as an association list. -/
abbrev Store := List (Str × Str)

/-- KV read (`env.UFW_LOGS.get`). -/
def Store.get : Store → Str → Option Str
  | [], _ => none
  | (k, v) :: rest, key => if k = key then some v else Store.get rest key

/-- KV write (`env.UFW_LOGS.put`); the TTL argument of the source is dropped. -/
def Store.put : Store → Str → Str → Store
  | [], key, v => [(key, v)]
  | (k, w) :: rest, key, v =>
    if k = key then (key, v) :: rest else (k, w) :: Store.put rest key v

/-- Parse status of `env.SCAN_PATTERNS` (index.js lines 278-283): `unset`
models an absent variable (`'[]'` is parsed, giving the empty list),
`malformed` a set but unparsable value (JSON.parse throws), and `ok` a
successfully parsed array of pattern strings. -/
inductive PatConfig where
  | unset
  | malformed
  | ok (pats : List Str)
  deriving DecidableEq

/-- Worker bindings (the `env` object). Field names follow the source; the
honeypot slots `HONEYPOT_1 .. HONEYPOT_10` are a function of the index. -/
structure Env where
  PROXY_KEY : Option Str := none
  ADMIN_KEY : Option Str := none
  ANTHROPIC_API_KEY : Option Str := none
  OPENAI_API_KEY : Option Str := none
  OPENROUTER_API_KEY : Option Str := none
  DEEPSEEK_API_KEY : Option Str := none
  KIMI_API_KEY : Option Str := none
  honeypot : Nat → Option Str := fun _ => none
  RATE_LIMIT_PER_MIN : Option Str := none
  RATE_LIMIT_PER_HOUR : Option Str := none
  scanPatterns : PatConfig := PatConfig.unset

/-- checkRateLimit (index.js lines 254-273): read both counters; deny on the
minute ceiling first, then the hour ceiling; otherwise increment both. A
denial returns the store untouched. -/
def checkRateLimit (store : Store) (agentId minBucket hrBucket : Str)
    (perMin perHour : Nat) : Option Str × Store :=
  let minKey := str ("rate:") ++ agentId ++ str (":min:") ++ minBucket
  let hrKey := str ("rate:") ++ agentId ++ str (":hr:") ++ hrBucket
  let minCount := jsCounter (Store.get store minKey)
  let hrCount := jsCounter (Store.get store hrKey)
  if perMin ≤ minCount then (some (natStr perMin ++ str ("/min")), store)
  else if perHour ≤ hrCount then (some (natStr perHour ++ str ("/hr")), store)
  else (none,
    Store.put (Store.put store minKey (natStr (minCount + 1)))
      hrKey (natStr (hrCount + 1)))

/-- Inner loop of scanSecrets (index.js lines 285-293): first compilable
pattern whose test accepts the body wins; a pattern whose compilation throws
is skipped. -/
def scanList (compileI : Str → Option (Str → Bool)) (body : Str) :
    List Str → Option Str
  | [] => none
  | p :: rest =>
    match compileI p with
    | none => scanList compileI body rest
    | some t => if t body then some p else scanList compileI body rest

/-- scanSecrets (index.js lines 277-295): a malformed pattern configuration
returns no match (fail-open); an unset configuration parses `'[]'` and scans
the empty list. -/
def scanSecrets (compileI : Str → Option (Str → Bool)) (cfg : PatConfig)
    (body : Str) : Option Str :=
  match cfg with
  | PatConfig.malformed => none
  | PatConfig.unset => scanList compileI body []
  | PatConfig.ok pats => scanList compileI body pats

/-- One element of an outbound regex: a literal, or a character class with a
minimum count and an optional exact cap (`{n}` is `lo = n, hi = some n`;
`{n,}` is `lo = n, hi = none`; `+` is `lo = 1, hi = none`). -/
inductive RItem where
  | lit (s : Str)
  | cls (f : Char → Bool) (lo : Nat) (hi : Option Nat)

/-- Length of the maximal run of class characters at the head of `l`. -/
def greedyCount (f : Char → Bool) : Str → Nat
  | [] => 0
  | c :: rest => if f c then greedyCount f rest + 1 else 0

/-- Greedy match of a pattern at the head of `l`, returning the matched
length. Greedy matching agrees with the JS engine on all nine
RESPONSE_PATTERNS because none of them needs backtracking. -/
def matchItems : List RItem → Str → Option Nat
  | [], _ => some 0
  | RItem.lit s :: rest, l =>
    if isPre s l then (matchItems rest (l.drop s.length)).map (fun n => n + s.length)
    else none
  | RItem.cls f lo hi :: rest, l =>
    let k :=
      match hi with
      | some m => Nat.min (greedyCount f l) m
      | none => greedyCount f l
    if k < lo then none
    else (matchItems rest (l.drop k)).map (fun n => n + k)

/-- JS `pattern.test(t)` with `lastIndex` reset: a match exists somewhere. -/
def rtest (p : List RItem) : Str → Bool
  | [] => (matchItems p []).isSome
  | c :: rest => (matchItems p (c :: rest)).isSome || rtest p rest

/-- Fuel-driven worker for global regex replacement. -/
def rrepFuel (p : List RItem) (mark : Str) : Nat → Str → Str
  | _, [] => []
  | 0, c :: rest => c :: rest
  | fuel + 1, c :: rest =>
    match matchItems p (c :: rest) with
    | some n =>
      if n = 0 then c :: rrepFuel p mark fuel rest
      else mark ++ rrepFuel p mark fuel (rest.drop (n - 1))
    | none => c :: rrepFuel p mark fuel rest

/-- JS `t.replace(pattern, mark)` with a global flag and `lastIndex` reset. -/
def rreplace (p : List RItem) (mark : Str) (l : Str) : Str :=
  rrepFuel p mark l.length l

/-- The fixed redaction marker substituted for every detected secret. -/
def marker : Str := str ("[REDACTED-BY-UFW]")

/-- An outbound pattern together with its source text (index.js lines
344-354); the source text feeds the `pattern:` tag excerpt. -/
structure RePat where
  source : Str
  items : List RItem

/-- Character class `[a-zA-Z0-9_-]`. -/
def isWordDash (c : Char) : Bool := c.isAlpha || c.isDigit || c == '_' || c == '-'

/-- Character class `[a-zA-Z0-9]`. -/
def isAlnum (c : Char) : Bool := c.isAlpha || c.isDigit

/-- Character class `[A-Z0-9]`. -/
def isUpperDigit (c : Char) : Bool := c.isUpper || c.isDigit

/-- Character class `[a-f0-9]`. -/
def isHexLower (c : Char) : Bool := (('a') ≤ c && c ≤ ('f')) || c.isDigit

/-- Character class `[bpras]`. -/
def isSlackMode (c : Char) : Bool :=
  c == 'b' || c == 'p' || c == 'r' || c == 'a' || c == 's'

/-- Character class `[a-zA-Z0-9-]`. -/
def isSlackBody (c : Char) : Bool := c.isAlpha || c.isDigit || c == '-'

/-- Character class `[0-9]`. -/
def isDigitCh (c : Char) : Bool := c.isDigit

/-- RESPONSE_PATTERNS (index.js lines 344-354), each with its regex source
text and its embedded matcher. -/
def RESPONSE_PATTERNS : List RePat := [
  ⟨str ("sk-[a-zA-Z0-9_-]\x7b20,\x7d"),
   [RItem.lit (str ("sk-")), RItem.cls isWordDash 20 none]⟩,
  ⟨str ("ghp_[a-zA-Z0-9]\x7b36\x7d"),
   [RItem.lit (str ("ghp_")), RItem.cls isAlnum 36 (some 36)]⟩,
  ⟨str ("eyJ[a-zA-Z0-9_-]\x7b20,\x7d"),
   [RItem.lit (str ("eyJ")), RItem.cls isWordDash 20 none]⟩,
  ⟨str ("AKIA[A-Z0-9]\x7b16\x7d"),
   [RItem.lit (str ("AKIA")), RItem.cls isUpperDigit 16 (some 16)]⟩,
  ⟨str ("rpa_[a-zA-Z0-9]\x7b40,\x7d"),
   [RItem.lit (str ("rpa_")), RItem.cls isAlnum 40 none]⟩,
  ⟨str ("xox[bpras]-[a-zA-Z0-9-]\x7b10,\x7d"),
   [RItem.lit (str ("xox")), RItem.cls isSlackMode 1 (some 1),
    RItem.lit (str ("-")), RItem.cls isSlackBody 10 none]⟩,
  ⟨str ("[0-9]+:AA[a-zA-Z0-9_-]\x7b30,\x7d"),
   [RItem.cls isDigitCh 1 none, RItem.lit (str (":AA")),
    RItem.cls isWordDash 30 none]⟩,
  ⟨str ("[a-f0-9]\x7b64\x7d"),
   [RItem.cls isHexLower 64 (some 64)]⟩,
  ⟨str ("[a-f0-9]\x7b8\x7d-[a-f0-9]\x7b4\x7d-[a-f0-9]\x7b4\x7d-[a-f0-9]\x7b4\x7d-[a-f0-9]\x7b12\x7d:[a-f0-9]\x7b32\x7d"),
   [RItem.cls isHexLower 8 (some 8), RItem.lit (str ("-")),
    RItem.cls isHexLower 4 (some 4), RItem.lit (str ("-")),
    RItem.cls isHexLower 4 (some 4), RItem.lit (str ("-")),
    RItem.cls isHexLower 4 (some 4), RItem.lit (str ("-")),
    RItem.cls isHexLower 12 (some 12), RItem.lit (str (":")),
    RItem.cls isHexLower 32 (some 32)]⟩]

/-- A configured known secret: its binding name and literal value. -/
structure Secret where
  name : Str
  value : Str
  deriving DecidableEq

/-- KNOWN_SECRET_KEYS (index.js lines 356-360). -/
def KNOWN_SECRET_KEYS : List Str :=
  [str ("PROXY_KEY"), str ("ADMIN_KEY"), str ("ANTHROPIC_API_KEY"),
   str ("OPENAI_API_KEY"), str ("OPENROUTER_API_KEY"),
   str ("DEEPSEEK_API_KEY"), str ("KIMI_API_KEY")]

/-- Dynamic `env[key]` access restricted to the named credential keys. -/
def Env.lookupKey (env : Env) (k : Str) : Option Str :=
  if k = str ("PROXY_KEY") then env.PROXY_KEY
  else if k = str ("ADMIN_KEY") then env.ADMIN_KEY
  else if k = str ("ANTHROPIC_API_KEY") then env.ANTHROPIC_API_KEY
  else if k = str ("OPENAI_API_KEY") then env.OPENAI_API_KEY
  else if k = str ("OPENROUTER_API_KEY") then env.OPENROUTER_API_KEY
  else if k = str ("DEEPSEEK_API_KEY") then env.DEEPSEEK_API_KEY
  else if k = str ("KIMI_API_KEY") then env.KIMI_API_KEY
  else none

/-- getKnownSecrets (index.js lines 362-374): a named credential is included
only when set, truthy and at least 8 characters long; a honeypot slot
HONEYPOT_1 .. HONEYPOT_10 is included whenever set and truthy. -/
def getKnownSecrets (env : Env) : List Secret :=
  (KNOWN_SECRET_KEYS.filterMap fun key =>
    match Env.lookupKey env key with
    | some v => if v ≠ [] ∧ 8 ≤ v.length then some ⟨key, v⟩ else none
    | none => none)
  ++ ((List.range 10).filterMap fun i =>
    match env.honeypot (i + 1) with
    | some v => if v ≠ [] then some ⟨str ("HONEYPOT_") ++ natStr (i + 1), v⟩ else none
    | none => none)

/-- Exact-match layer of scanResponseContent (index.js lines 399-404): every
configured secret whose literal value occurs in the running text is replaced
everywhere via split/join and tagged. -/
def exactLayer : List Secret → Str → Str × List Str
  | [], scanned => (scanned, [])
  | s :: rest, scanned =>
    if occurs s.value scanned then
      let res := exactLayer rest (joinWith marker (splitOnL s.value scanned))
      (res.1, (str ("known:") ++ s.name) :: res.2)
    else exactLayer rest scanned

/-- Pattern layer of scanResponseContent (index.js lines 407-414): each
built-in pattern is tested against the running text and, on a hit, globally
replaced and tagged with the first 30 characters of its source. -/
def patternLayer : List RePat → Str → Str × List Str
  | [], t => (t, [])
  | p :: rest, t =>
    if rtest p.items t then
      let res := patternLayer rest (rreplace p.items marker t)
      (res.1, (str ("pattern:") ++ p.source.take 30) :: res.2)
    else patternLayer rest t

/-- Per-choice scan (index.js lines 392-419 body): the exact-match layer runs
first, then the pattern layer runs on its output; tags accumulate in
detection order. -/
def scanChoice (secrets : List Secret) (pats : List RePat) (content : Str) :
    Str × List Str :=
  let e := exactLayer secrets content
  let q := patternLayer pats e.1
  (q.1, e.2 ++ q.2)

/-- Loop over the parsed `choices` array: an entry is `some content` when
`choice.message.content` is a string, `none` otherwise (skipped). -/
def scanChoices (secrets : List Secret) (pats : List RePat) :
    List (Option Str) → List (Option Str) × List Str
  | [] => ([], [])
  | none :: rest =>
    let r := scanChoices secrets pats rest
    (none :: r.1, r.2)
  | some t :: rest =>
    let c := scanChoice secrets pats t
    let r := scanChoices secrets pats rest
    (some c.1 :: r.1, c.2 ++ r.2)

/-- Result of scanResponseContent: `passthrough` models every path that
returns `{ redacted: responseBody, matched: [] }` (parse failure,
`choices` not an array, or no match — the original body is returned
unchanged, with no re-serialization); `redacted` models
`{ redacted: JSON.stringify(parsed), matched }` and carries the rewritten
choice contents and the non-empty matched-tag list. -/
inductive ScanResult where
  | passthrough
  | redacted (choices : List (Option Str)) (matched : List Str)
  deriving DecidableEq

/-- scanResponseContent (index.js lines 376-426). `parsed` is the JSON.parse
oracle: `none` when the body fails to parse or its `choices` is not an
array; `some cs` gives the choices with their optional string contents. -/
def scanResponseContent (env : Env) (parsed : Option (List (Option Str))) :
    ScanResult :=
  match parsed with
  | none => ScanResult.passthrough
  | some choices =>
    let r := scanChoices (getKnownSecrets env) RESPONSE_PATTERNS choices
    if r.2.isEmpty then ScanResult.passthrough
    else ScanResult.redacted r.1 r.2

/-- Delta payload of one SSE chunk (`chunk.choices[0].delta`). -/
structure Delta where
  role : Option Str := none
  content : Option Str := none
  deriving DecidableEq

/-- One decoded SSE data frame (the fields assembleSSEResponse reads). -/
structure Chunk where
  id : Option Str := none
  model : Option Str := none
  delta : Option Delta := none
  finish : Option Str := none
  deriving DecidableEq

/-- One line of the buffered event stream: a non-data line, the `[DONE]`
sentinel, or a data frame whose JSON payload parsed to `some` chunk
(`none` models an undecodable payload, which the source skips). -/
inductive SSEItem where
  | nonData
  | done
  | frame (chunk : Option Chunk)
  deriving DecidableEq

/-- Accumulator of assembleSSEResponse (index.js lines 303-307). -/
structure AsmState where
  role : Str
  content : Str
  model : Str
  id : Str
  finish : Option Str
  deriving DecidableEq

/-- Initial accumulator values (index.js lines 303-307). -/
def initState : AsmState := ⟨str ("assistant"), [], str ("unknown"), [], none⟩

/-- JS truthiness of an optional string (null and `""` are falsy). -/
def jsTruthy : Option Str → Bool
  | some s => !s.isEmpty
  | none => false

/-- One iteration of the frame loop (index.js lines 309-325). -/
def stepSSE (st : AsmState) : SSEItem → AsmState
  | SSEItem.nonData => st
  | SSEItem.done => st
  | SSEItem.frame none => st
  | SSEItem.frame (some ch) =>
    let st1 := if jsTruthy ch.id then { st with id := ch.id.getD [] } else st
    let st2 := if jsTruthy ch.model then { st1 with model := ch.model.getD [] } else st1
    let st3 :=
      match ch.delta with
      | some d =>
        let a := if jsTruthy d.role then { st2 with role := d.role.getD [] } else st2
        if jsTruthy d.content then { a with content := a.content ++ d.content.getD [] }
        else a
      | none => st2
    if jsTruthy ch.finish then { st3 with finish := ch.finish } else st3

/-- One choice of the assembled completion; the source nests `role` and
`content` under `message`, flattened here. -/
structure AsmChoice where
  index : Nat
  role : Str
  content : Str
  finish_reason : Str
  deriving DecidableEq

/-- The assembled non-streaming completion object (index.js lines 328-337). -/
structure Assembled where
  id : Str
  object : Str
  model : Str
  choices : List AsmChoice
  deriving DecidableEq

/-- assembleSSEResponse (index.js lines 299-340) on the decoded line list. -/
def assembleSSEResponse (items : List SSEItem) : Assembled :=
  let st := items.foldl stepSSE initState
  { id := if st.id.isEmpty then str ("chatcmpl-assembled") else st.id,
    object := str ("chat.completion"),
    model := st.model,
    choices := [{ index := 0, role := st.role, content := st.content,
                  finish_reason :=
                    match st.finish with
                    | some s => if s.isEmpty then str ("stop") else s
                    | none => str ("stop") }] }

/-- Specification-side reading of a frame's content contribution, for the
refinement statement of C6 ("order-preserving concatenation of delta
contents"). -/
def contentOf : SSEItem → Option Str
  | SSEItem.frame (some ch) =>
    (match ch.delta with
     | some d => d.content
     | none => none)
  | _ => none

/-- Specification-side concatenation of all delta contents, in order. -/
def specContents : List SSEItem → Str
  | [] => []
  | i :: rest => (contentOf i).getD [] ++ specContents rest

/-- Specification-side reading of a frame's finish reason (non-empty only). -/
def finishOf : SSEItem → Option Str
  | SSEItem.frame (some ch) =>
    (match ch.finish with
     | some s => if s.isEmpty then none else some s
     | none => none)
  | _ => none

/-- Specification-side "last non-empty finish reason seen". -/
def specLastFinish (items : List SSEItem) : Option Str :=
  items.reverse.findSome? finishOf

/-- Static provider route data (index.js lines 4-10); `keyPre` is the
credential value prefix (source field name: keyPrefix). -/
structure Provider where
  upstream : Str
  keyHeader : Str
  keyPre : Option Str
  keyEnv : Str
  deriving DecidableEq

/-- PROVIDERS routing table (index.js lines 4-10). -/
def PROVIDERS : Str → Option Provider
  | l =>
    if l = str ("anthropic") then
      some ⟨str ("https://api.anthropic.com"), str ("x-api-key"), none,
            str ("ANTHROPIC_API_KEY")⟩
    else if l = str ("openrouter") then
      some ⟨str ("https://openrouter.ai/api"), str ("authorization"),
            some (str ("Bearer ")), str ("OPENROUTER_API_KEY")⟩
    else if l = str ("openai") then
      some ⟨str ("https://api.openai.com"), str ("authorization"),
            some (str ("Bearer ")), str ("OPENAI_API_KEY")⟩
    else if l = str ("deepseek") then
      some ⟨str ("https://api.deepseek.com"), str ("authorization"),
            some (str ("Bearer ")), str ("DEEPSEEK_API_KEY")⟩
    else if l = str ("kimi") then
      some ⟨str ("https://api.moonshot.ai"), str ("authorization"),
            some (str ("Bearer ")), str ("KIMI_API_KEY")⟩
    else none

/-- Inbound HTTP request fields the handler reads. -/
structure Request where
  pathname : Str
  search : Str
  method : Str
  authorization : Option Str
  xAgentId : Option Str
  rawBody : Str
  deriving DecidableEq

/-- Error body of a `json({...}, status)` response: the `error` message, the
optional `code` member, and the optional `pattern` member of the 403 body. -/
structure ErrBody where
  error : Str
  code : Option Str
  pat : Option Str
  deriving DecidableEq

/-- Caller-visible outcome of the handler, up to the upstream forward. The
response-side scanning of a forwarded call is modelled separately by
`scanResponseContent` / `assembleSSEResponse`. -/
inductive Outcome where
  | adminHandled
  | unknownRoute
  | killSwitch
  | unauthorized
  | rateLimited (reason : Str)
  | secretDetected (pattern0 : Str)
  | forwarded (url : Str) (body : Str)
  deriving DecidableEq

/-- The HTTP status and JSON body each error outcome surfaces (the
`json({...}, status)` calls of index.js lines 33, 43, 50, 63, 71). -/
def Outcome.errorResponse : Outcome → Option (Nat × ErrBody)
  | Outcome.unknownRoute =>
    some (404, ⟨str ("Unknown route. Use /anthropic/*, /openai/*, /openrouter/*, /deepseek/*, or /kimi/*"), none, none⟩)
  | Outcome.killSwitch =>
    some (503, ⟨str ("UFW kill switch is active. All requests are blocked."),
                some (str ("KILL_SWITCH")), none⟩)
  | Outcome.unauthorized =>
    some (401, ⟨str ("Unauthorized. Provide Authorization: Bearer <PROXY_KEY>"),
                none, none⟩)
  | Outcome.rateLimited r =>
    some (429, ⟨str ("Rate limit exceeded: ") ++ r,
                some (str ("RATE_LIMITED")), none⟩)
  | Outcome.secretDetected p =>
    some (403, ⟨str ("Request blocked: potential secret detected in request body"),
                some (str ("SECRET_DETECTED")), some p⟩)
  | _ => none

/-- Observable steps the handler performs, in order: KV reads, the auth
comparison, the rate-limiter call, the inbound scan, block-log records,
the credential read, the upstream call and the usage log. -/
inductive Effect where
  | kvGet (key : Str)
  | authChecked
  | rateChecked
  | inboundScanned
  | logBlock (agentId provider reason : Str)
  | credRead (name : Str)
  | upstreamCall (url : Str)
  | logUsage (agentId : Str)
  deriving DecidableEq

/-- Handler result: the outcome, the store after any counter increments, and
the ordered effect trace. -/
structure FetchResult where
  outcome : Outcome
  store : Store
  effects : List Effect
  deriving DecidableEq

/-- Path segments of the request (index.js line 29:
`path.split('/').filter(Boolean)`). -/
def routeSegs (req : Request) : List Str :=
  (splitOnL (str ("/")) req.pathname).filter (fun s => s ≠ [])

/-- Agent identity (index.js line 36: `headers.get('x-agent-id') || 'default'`). -/
def agentIdOf (req : Request) : Str := jsHeaderOr req.xAgentId (str ("default"))

/-- Request body text (index.js line 37: empty for GET). -/
def bodyOf (req : Request) : Str :=
  if req.method = str ("GET") then [] else req.rawBody

/-- Bearer token extraction (index.js lines 47-48). -/
def proxyTokenOf (req : Request) : Str :=
  if isPre (str ("Bearer ")) ((req.authorization).getD []) then
    ((req.authorization).getD []).drop 7
  else []

/-- The fetch handler (index.js lines 19-120) up to the upstream forward:
admin dispatch, provider routing, kill switch, proxy auth, rate limiting,
inbound secret scanning, then the forward (whose streaming rewrite and
header rewriting carry no claim and are elided; the upstream URL is
computed as in lines 76-77). `iso` is `now.toISOString()`. -/
def handleFetch (compileI : Str → Option (Str → Bool)) (env : Env)
    (store : Store) (req : Request) (iso : Str) : FetchResult :=
  if isPre (str ("/admin/")) req.pathname then ⟨Outcome.adminHandled, store, []⟩
  else
    match routeSegs req with
    | [] => ⟨Outcome.unknownRoute, store, []⟩
    | providerName :: restSegs =>
      match PROVIDERS providerName with
      | none => ⟨Outcome.unknownRoute, store, []⟩
      | some provider =>
        let agentId := agentIdOf req
        let body := bodyOf req
        if Store.get store (str ("ENABLED")) = some (str ("false")) then
          ⟨Outcome.killSwitch, store,
           [Effect.kvGet (str ("ENABLED")),
            Effect.logBlock agentId providerName (str ("kill_switch"))]⟩
        else
          let proxyToken := proxyTokenOf req
          if proxyToken = [] ∨ env.PROXY_KEY ≠ some proxyToken then
            ⟨Outcome.unauthorized, store,
             [Effect.kvGet (str ("ENABLED")), Effect.authChecked]⟩
          else
            let perMin := jsParseIntOrDefault env.RATE_LIMIT_PER_MIN 30
            let perHour := jsParseIntOrDefault env.RATE_LIMIT_PER_HOUR 500
            match checkRateLimit store agentId (iso.take 16) (iso.take 13)
                perMin perHour with
            | (some reason, store2) =>
              ⟨Outcome.rateLimited reason, store2,
               [Effect.kvGet (str ("ENABLED")), Effect.authChecked,
                Effect.rateChecked,
                Effect.logBlock agentId providerName reason]⟩
            | (none, store2) =>
              let scanRes :=
                if body ≠ [] then scanSecrets compileI env.scanPatterns body
                else none
              let scanEff :=
                if body ≠ [] then [Effect.inboundScanned] else ([] : List Effect)
              match scanRes with
              | some pat =>
                ⟨Outcome.secretDetected pat, store2,
                 [Effect.kvGet (str ("ENABLED")), Effect.authChecked,
                  Effect.rateChecked] ++ scanEff ++
                 [Effect.logBlock agentId providerName
                    (str ("secret_detected:") ++ pat)]⟩
              | none =>
                let upstreamUrl :=
                  provider.upstream ++ (str ("/") ++ joinWith (str ("/")) restSegs)
                    ++ req.search
                ⟨Outcome.forwarded upstreamUrl body, store2,
                 [Effect.kvGet (str ("ENABLED")), Effect.authChecked,
                  Effect.rateChecked] ++ scanEff ++
                 [Effect.credRead provider.keyEnv,
                  Effect.upstreamCall upstreamUrl,
                  Effect.logUsage agentId]⟩

/-- Tag produced by an exact-match hit on a secret. -/
def exactTag (s : Secret) : Str := str ("known:") ++ s.name

/-- Tag produced by a pattern hit. -/
def patTag (p : RePat) : Str := str ("pattern:") ++ p.source.take 30

/-- Boolean check that a text contains none of the given secret values. -/
def secretsClean (secrets : List Secret) (t : Str) : Bool :=
  secrets.all (fun s => !occurs s.value t)

/-- Boolean check that a text matches none of the given patterns. -/
def patsClean (pats : List RePat) (t : Str) : Bool :=
  pats.all (fun p => !rtest p.items t)

/-- Boolean check that one parsed choice offers nothing for either scanner
layer to match under the given environment. -/
def choiceClean (env : Env) : Option Str → Bool
  | none => true
  | some t =>
    secretsClean (getKnownSecrets env) t && patsClean RESPONSE_PATTERNS t

/-- A list is a prefix of itself. -/
theorem isPre_refl (l : Str) : isPre l l = true := by
  induction l with
  | nil => rfl
  | cons c rest ih => simp [isPre, ih]

/-- Only the empty list is a prefix of the empty list. -/
theorem isPre_nil (s : Str) : isPre s [] = true ↔ s = [] := by
  cases s <;> simp [isPre]

/-- Extending both lists by the same head preserves prefixes. -/
theorem isPre_cons_cons (c : Char) (p r : Str) (h : isPre p r = true) :
    isPre (c :: p) (c :: r) = true := by
  simp [isPre, h]

/-- Prefix-of is transitive. -/
theorem isPre_trans : ∀ {a b c : Str},
    isPre a b = true → isPre b c = true → isPre a c = true := by
  intro a
  induction a with
  | nil => intro b c _ _; rfl
  | cons x xs ih =>
    intro b c hab hbc
    cases b with
    | nil => simp [isPre] at hab
    | cons y ys =>
      cases c with
      | nil => simp [isPre] at hbc
      | cons z zs =>
        simp only [isPre, Bool.and_eq_true, beq_iff_eq] at hab hbc ⊢
        exact ⟨hab.1.trans hbc.1, ih hab.2 hbc.2⟩

/-- A prefix followed by the corresponding drop reconstructs the list. -/
theorem isPre_append_drop : ∀ {s l : Str},
    isPre s l = true → s ++ l.drop s.length = l := by
  intro s
  induction s with
  | nil => intro l _; simp
  | cons x xs ih =>
    intro l h
    cases l with
    | nil => simp [isPre] at h
    | cons y ys =>
      simp only [isPre, Bool.and_eq_true, beq_iff_eq] at h
      simp only [List.length_cons, List.drop_succ_cons, List.cons_append, h.1]
      rw [ih h.2]

/-- splitFuel never produces the empty list of pieces. -/
theorem splitFuel_ne_nil (sep : Str) (fuel : Nat) (l : Str) :
    splitFuel sep fuel l ≠ [] := by
  induction fuel generalizing l with
  | zero => cases l <;> simp [splitFuel]
  | succ fuel ih =>
    cases l with
    | nil => simp [splitFuel]
    | cons c rest =>
      simp only [splitFuel]
      split
      · simp
      · split
        · simp
        · simp

/-- The first piece of a splitFuel result is a prefix of the input. -/
theorem splitFuel_head_pre (sep : Str) (fuel : Nat) (l : Str) :
    ∃ p ps, splitFuel sep fuel l = p :: ps ∧ isPre p l = true := by
  induction fuel generalizing l with
  | zero =>
    cases l with
    | nil => exact ⟨[], [], rfl, rfl⟩
    | cons c rest => exact ⟨c :: rest, [], rfl, isPre_refl _⟩
  | succ fuel ih =>
    cases l with
    | nil => exact ⟨[], [], rfl, rfl⟩
    | cons c rest =>
      by_cases h : (!sep.isEmpty && isPre sep (c :: rest)) = true
      · exact ⟨[], splitFuel sep fuel (rest.drop (sep.length - 1)),
          by simp [splitFuel, h], rfl⟩
      · obtain ⟨p, ps, heq, hpre⟩ := ih rest
        exact ⟨c :: p, ps, by simp [splitFuel, h, heq],
          isPre_cons_cons _ _ _ hpre⟩

/-- With a non-empty separator and enough fuel, no piece of a splitFuel
result contains the separator as a substring: every occurrence was consumed
by the leftmost-scan split. -/
theorem splitFuel_clean (sep : Str) (hsep : sep ≠ []) :
    ∀ fuel l, l.length < fuel →
      ∀ p ∈ splitFuel sep fuel l, occurs sep p = false := by
  intro fuel
  induction fuel with
  | zero => intro l h; omega
  | succ fuel ih =>
    intro l hlen p hp
    have hocc_nil : occurs sep [] = false := by
      cases sep with
      | nil => exact absurd rfl hsep
      | cons a as => rfl
    cases l with
    | nil =>
      simp [splitFuel] at hp
      simpa [hp] using hocc_nil
    | cons c rest =>
      have hrl : rest.length < fuel := by
        simp only [List.length_cons] at hlen; omega
      by_cases h : (!sep.isEmpty && isPre sep (c :: rest)) = true
      · rw [splitFuel, if_pos h] at hp
        rcases List.mem_cons.mp hp with rfl | hmem
        · exact hocc_nil
        · have hdl : (rest.drop (sep.length - 1)).length < fuel := by
            have := List.length_drop (sep.length - 1) rest
            omega
          exact ih _ hdl p hmem
      · rw [splitFuel, if_neg h] at hp
        have hie : sep.isEmpty = false := by
          cases sep with
          | nil => exact absurd rfl hsep
          | cons a as => rfl
        have hnotpre : isPre sep (c :: rest) = false := by
          rcases Bool.eq_false_or_eq_true (isPre sep (c :: rest)) with ht | hf
          · exfalso
            apply h
            simp [ht, hie]
          · exact hf
        obtain ⟨q, qs, heq, hqpre⟩ := splitFuel_head_pre sep fuel rest
        rw [heq] at hp
        rcases List.mem_cons.mp hp with rfl | hmem
        · have hq : occurs sep q = false :=
            ih rest hrl q (by rw [heq]; exact List.mem_cons_self q qs)
          have hnp : isPre sep (c :: q) = false := by
            rcases Bool.eq_false_or_eq_true (isPre sep (c :: q)) with ht | hf
            · exfalso
              have hcr : isPre sep (c :: rest) = true :=
                isPre_trans ht (isPre_cons_cons c q rest hqpre)
              rw [hcr] at hnotpre
              exact Bool.noConfusion hnotpre
            · exact hf
          simp [occurs, hnp, hq]
        · exact ih rest hrl p (by rw [heq]; exact List.mem_cons_of_mem q hmem)

/-- Joining a splitFuel result with the separator reconstructs the input:
the pieces are exactly the text between the occurrences. -/
theorem joinWith_splitFuel (sep : Str) :
    ∀ fuel l, l.length < fuel → joinWith sep (splitFuel sep fuel l) = l := by
  intro fuel
  induction fuel with
  | zero => intro l h; omega
  | succ fuel ih =>
    intro l hlen
    cases l with
    | nil => simp [splitFuel, joinWith]
    | cons c rest =>
      have hrl : rest.length < fuel := by
        simp only [List.length_cons] at hlen; omega
      by_cases h : (!sep.isEmpty && isPre sep (c :: rest)) = true
      · rw [splitFuel, if_pos h]
        have hpre : isPre sep (c :: rest) = true := by
          cases hh : isPre sep (c :: rest)
          · rw [hh] at h; simp at h
          · rfl
        have hsep : sep ≠ [] := by
          intro hnil
          rw [hnil] at h
          simp at h
        obtain ⟨q, qs, heq, _⟩ := splitFuel_head_pre sep fuel (rest.drop (sep.length - 1))
        have hdl : (rest.drop (sep.length - 1)).length < fuel := by
          have := List.length_drop (sep.length - 1) rest
          omega
        have hrec : joinWith sep (q :: qs) = rest.drop (sep.length - 1) := by
          rw [← heq]; exact ih _ hdl
        rw [heq]
        show [] ++ sep ++ joinWith sep (q :: qs) = c :: rest
        rw [hrec, List.nil_append]
        have hdroprw : rest.drop (sep.length - 1) = (c :: rest).drop sep.length := by
          cases sep with
          | nil => exact absurd rfl hsep
          | cons s0 ss => simp
        rw [hdroprw]
        exact isPre_append_drop hpre
      · rw [splitFuel, if_neg h]
        obtain ⟨q, qs, heq, _⟩ := splitFuel_head_pre sep fuel rest
        have hrec : joinWith sep (q :: qs) = rest := by
          rw [← heq]; exact ih rest hrl
        rw [heq]
        cases qs with
        | nil =>
          simp only [joinWith] at hrec ⊢
          rw [hrec]
        | cons q2 qs2 =>
          simp only [joinWith] at hrec ⊢
          rw [List.cons_append, List.cons_append, hrec]

/-- Pieces of a splitOnL with non-empty separator never contain it. -/
theorem splitOnL_clean (sep l : Str) (hsep : sep ≠ []) :
    ∀ p ∈ splitOnL sep l, occurs sep p = false :=
  splitFuel_clean sep hsep (l.length + 1) l (Nat.lt_succ_self _)

/-- Joining the pieces of splitOnL with the separator gives back the text:
the pieces are byte-identical segments of the original. -/
theorem joinWith_splitOnL (sep l : Str) :
    joinWith sep (splitOnL sep l) = l :=
  joinWith_splitFuel sep (l.length + 1) l (Nat.lt_succ_self _)

/-- Reading a key just written returns the written value. -/
theorem Store.get_put_same (s : Store) (k v : Str) :
    Store.get (Store.put s k v) k = some v := by
  induction s with
  | nil => simp [Store.put, Store.get]
  | cons kv rest ih =>
    obtain ⟨k', w⟩ := kv
    by_cases h : k' = k
    · simp [Store.put, Store.get, h]
    · simp [Store.put, Store.get, h, ih]

/-- Writing one key leaves reads of any other key unchanged. -/
theorem Store.get_put_ne (s : Store) (k v k' : Str) (h : k' ≠ k) :
    Store.get (Store.put s k v) k' = Store.get s k' := by
  have h2 : k ≠ k' := Ne.symm h
  induction s with
  | nil => simp [Store.put, Store.get, h2]
  | cons kv rest ih =>
    obtain ⟨k0, w⟩ := kv
    by_cases h0 : k0 = k
    · subst h0
      simp [Store.put, Store.get, h2]
    · simp [Store.put, Store.get, h0, ih]

/-- The minute-bucket key and the hour-bucket key of a rate-limiter call are
always distinct, whatever the agent id and bucket labels. -/
theorem rate_keys_ne (a b1 b2 : Str) :
    str ("rate:") ++ a ++ str (":min:") ++ b1 ≠
      str ("rate:") ++ a ++ str (":hr:") ++ b2 := by
  intro h
  have h1 : str ("rate:") ++ (a ++ (str (":min:") ++ b1)) =
      str ("rate:") ++ (a ++ (str (":hr:") ++ b2)) := by
    simpa [List.append_assoc] using h
  have h2 : a ++ (str (":min:") ++ b1) = a ++ (str (":hr:") ++ b2) :=
    List.append_cancel_left h1
  have h3 : str (":min:") ++ b1 = str (":hr:") ++ b2 :=
    List.append_cancel_left h2
  have h4 : (':' :: 'm' :: 'i' :: 'n' :: ':' :: b1 : Str) =
      ':' :: 'h' :: 'r' :: ':' :: b2 := h3
  simp at h4

/-- Tags produced by the exact-match layer are a subsequence of the tags of
the configured secrets, in configuration order. -/
theorem exactLayer_tags_sub (secrets : List Secret) :
    ∀ t, ((exactLayer secrets t).2).Sublist (secrets.map exactTag) := by
  induction secrets with
  | nil => intro t; simp [exactLayer]
  | cons s rest ih =>
    intro t
    by_cases h : occurs s.value t = true
    · simp only [exactLayer, if_pos h, List.map_cons]
      exact List.Sublist.cons₂ _ (ih _)
    · simp only [exactLayer, if_neg h, List.map_cons]
      exact List.Sublist.cons _ (ih t)

/-- Tags produced by the pattern layer are a subsequence of the tags of the
configured patterns, in configuration order. -/
theorem patternLayer_tags_sub (pats : List RePat) :
    ∀ t, ((patternLayer pats t).2).Sublist (pats.map patTag) := by
  induction pats with
  | nil => intro t; simp [patternLayer]
  | cons p rest ih =>
    intro t
    by_cases h : rtest p.items t = true
    · simp only [patternLayer, if_pos h, List.map_cons]
      exact List.Sublist.cons₂ _ (ih _)
    · simp only [patternLayer, if_neg h, List.map_cons]
      exact List.Sublist.cons _ (ih t)

/-- A text containing none of the secrets passes the exact-match layer
untouched and untagged. -/
theorem exactLayer_clean (secrets : List Secret) (t : Str)
    (h : secretsClean secrets t = true) : exactLayer secrets t = (t, []) := by
  induction secrets with
  | nil => rfl
  | cons s rest ih =>
    simp only [secretsClean, List.all_cons, Bool.and_eq_true, Bool.not_eq_true'] at h
    simp only [exactLayer, h.1, Bool.false_eq_true, if_false]
    exact ih (by simpa [secretsClean] using h.2)

/-- A text matching none of the patterns passes the pattern layer untouched
and untagged. -/
theorem patternLayer_clean (pats : List RePat) (t : Str)
    (h : patsClean pats t = true) : patternLayer pats t = (t, []) := by
  induction pats with
  | nil => rfl
  | cons p rest ih =>
    simp only [patsClean, List.all_cons, Bool.and_eq_true, Bool.not_eq_true'] at h
    simp only [patternLayer, h.1, Bool.false_eq_true, if_false]
    exact ih (by simpa [patsClean] using h.2)

/-- A choice text with nothing to match passes the whole per-choice scan
untouched and untagged. -/
theorem scanChoice_clean (secrets : List Secret) (pats : List RePat) (t : Str)
    (h1 : secretsClean secrets t = true) (h2 : patsClean pats t = true) :
    scanChoice secrets pats t = (t, []) := by
  simp [scanChoice, exactLayer_clean secrets t h1, patternLayer_clean pats t h2]

/-- A choices array with nothing to match is returned unchanged with no tags. -/
theorem scanChoices_clean (env : Env) :
    ∀ choices : List (Option Str), choices.all (choiceClean env) = true →
      scanChoices (getKnownSecrets env) RESPONSE_PATTERNS choices =
        (choices, []) := by
  intro choices
  induction choices with
  | nil => intro _; rfl
  | cons c rest ih =>
    intro h
    simp only [List.all_cons, Bool.and_eq_true] at h
    cases c with
    | none => simp [scanChoices, ih h.2]
    | some t =>
      have hc := h.1
      simp only [choiceClean, Bool.and_eq_true] at hc
      simp [scanChoices, scanChoice_clean _ _ t hc.1 hc.2, ih h.2]

/-- A response whose choices offer nothing to match is passed through as the
original body with an empty match list. -/
theorem scan_clean_pass (env : Env) (choices : List (Option Str))
    (h : choices.all (choiceClean env) = true) :
    scanResponseContent env (some choices) = ScanResult.passthrough := by
  simp [scanResponseContent, scanChoices_clean env choices h]

/-- A step of the SSE loop appends exactly the frame's delta content. -/
theorem stepSSE_content (st : AsmState) (i : SSEItem) :
    (stepSSE st i).content = st.content ++ (contentOf i).getD [] := by
  cases i with
  | nonData => simp [stepSSE, contentOf]
  | done => simp [stepSSE, contentOf]
  | frame och =>
    cases och with
    | none => simp [stepSSE, contentOf]
    | some ch =>
      cases hdel : ch.delta with
      | none =>
        simp [stepSSE, contentOf, hdel, apply_ite AsmState.content]
      | some d =>
        cases hc : d.content with
        | none =>
          simp [stepSSE, contentOf, hdel, hc, jsTruthy,
            apply_ite AsmState.content]
        | some s =>
          by_cases hs : s.isEmpty = true
          · have hs2 : s = [] := List.isEmpty_iff.mp hs
            subst hs2
            simp [stepSSE, contentOf, hdel, hc, jsTruthy,
              apply_ite AsmState.content]
          · simp only [Bool.not_eq_true] at hs
            simp [stepSSE, contentOf, hdel, hc, jsTruthy, hs,
              apply_ite AsmState.content]

/-- A step of the SSE loop updates the finish reason exactly when the frame
carries a truthy one. -/
theorem stepSSE_finish (st : AsmState) (i : SSEItem) :
    (stepSSE st i).finish =
      (match finishOf i with
       | some f => some f
       | none => st.finish) := by
  cases i with
  | nonData => simp [stepSSE, finishOf]
  | done => simp [stepSSE, finishOf]
  | frame och =>
    cases och with
    | none => simp [stepSSE, finishOf]
    | some ch =>
      cases hf : ch.finish with
      | none =>
        cases hdel : ch.delta with
        | none =>
          simp [stepSSE, finishOf, hf, hdel, jsTruthy, apply_ite AsmState.finish]
        | some d =>
          simp [stepSSE, finishOf, hf, hdel, jsTruthy, apply_ite AsmState.finish]
      | some s =>
        by_cases hs : s.isEmpty = true
        · have hs2 : s = [] := List.isEmpty_iff.mp hs
          subst hs2
          cases hdel : ch.delta with
          | none =>
            simp [stepSSE, finishOf, hf, hdel, jsTruthy, apply_ite AsmState.finish]
          | some d =>
            simp [stepSSE, finishOf, hf, hdel, jsTruthy, apply_ite AsmState.finish]
        · simp only [Bool.not_eq_true] at hs
          cases hdel : ch.delta with
          | none =>
            simp [stepSSE, finishOf, hf, hdel, jsTruthy, hs,
              apply_ite AsmState.finish]
          | some d =>
            simp [stepSSE, finishOf, hf, hdel, jsTruthy, hs,
              apply_ite AsmState.finish]

/-- The accumulated content of the SSE fold is the in-order concatenation of
all delta contents. -/
theorem foldl_stepSSE_content :
    ∀ (items : List SSEItem) (st : AsmState),
      (items.foldl stepSSE st).content = st.content ++ specContents items := by
  intro items
  induction items with
  | nil => intro st; simp [specContents]
  | cons i rest ih =>
    intro st
    simp only [List.foldl_cons, specContents]
    rw [ih, stepSSE_content, List.append_assoc]

/-- findSome? over an append scans the left part first. -/
theorem findSome?_append_or {α β : Type} (f : α → Option β) :
    ∀ (l1 l2 : List α),
      (l1 ++ l2).findSome? f =
        (match l1.findSome? f with
         | some x => some x
         | none => l2.findSome? f) := by
  intro l1
  induction l1 with
  | nil => intro l2; simp [List.findSome?]
  | cons a as ih =>
    intro l2
    simp only [List.cons_append, List.findSome?]
    cases f a with
    | none => simp [ih]
    | some x => simp

/-- The accumulated finish reason of the SSE fold is the last truthy finish
reason of the frames, if any. -/
theorem foldl_stepSSE_finish :
    ∀ (items : List SSEItem) (st : AsmState),
      (items.foldl stepSSE st).finish =
        (match specLastFinish items with
         | some f => some f
         | none => st.finish) := by
  intro items
  induction items with
  | nil => intro st; simp [specLastFinish, List.findSome?]
  | cons i rest ih =>
    intro st
    have hrw : specLastFinish (i :: rest) =
        (match specLastFinish rest with
         | some f => some f
         | none => finishOf i) := by
      simp only [specLastFinish, List.reverse_cons]
      rw [findSome?_append_or]
      cases rest.reverse.findSome? finishOf with
      | none => cases hfi : finishOf i <;> simp [List.findSome?, hfi]
      | some f => simp
    simp only [List.foldl_cons]
    rw [ih, hrw, stepSSE_finish]
    cases specLastFinish rest with
    | none => cases hfi : finishOf i <;> simp [hfi]
    | some f => simp

/-- finishOf never reports an empty finish reason. -/
theorem finishOf_ne_empty (i : SSEItem) (s : Str)
    (h : finishOf i = some s) : s.isEmpty = false := by
  cases i with
  | nonData => simp [finishOf] at h
  | done => simp [finishOf] at h
  | frame och =>
    cases och with
    | none => simp [finishOf] at h
    | some ch =>
      simp only [finishOf] at h
      cases hf : ch.finish with
      | none => rw [hf] at h; simp at h
      | some t =>
        rw [hf] at h
        by_cases he : t.isEmpty = true
        · simp [he] at h
        · simp only [Bool.not_eq_true] at he
          simp [he] at h
          rw [← h]
          exact he

/-- Honeypot entry names never collide with the named credential keys. -/
theorem hp_name_notin (i : Nat) :
    (str ("HONEYPOT_") ++ natStr i) ∉ KNOWN_SECRET_KEYS := by
  intro h
  have hh : (str ("HONEYPOT_") ++ natStr i).head? = some 'H' := rfl
  simp only [KNOWN_SECRET_KEYS, List.mem_cons, List.not_mem_nil, or_false] at h
  rcases h with h | h | h | h | h | h | h <;> rw [h] at hh <;> exact absurd hh (by decide)

/-- Every tag the exact-match layer reports names one of the given secrets. -/
theorem exactLayer_tags_mem (secrets : List Secret) :
    ∀ t tag, tag ∈ (exactLayer secrets t).2 →
      ∃ s ∈ secrets, tag = str ("known:") ++ s.name := by
  induction secrets with
  | nil => intro t tag h; simp [exactLayer] at h
  | cons s rest ih =>
    intro t tag h
    by_cases ho : occurs s.value t = true
    · simp only [exactLayer, if_pos ho] at h
      rcases List.mem_cons.mp h with rfl | hmem
      · exact ⟨s, List.mem_cons_self s rest, rfl⟩
      · obtain ⟨s2, hs2, htag⟩ := ih _ tag hmem
        exact ⟨s2, List.mem_cons_of_mem s hs2, htag⟩
    · simp only [exactLayer, if_neg ho] at h
      obtain ⟨s2, hs2, htag⟩ := ih t tag h
      exact ⟨s2, List.mem_cons_of_mem s hs2, htag⟩

/-- The first compilable-and-matching pattern in configured order wins. -/
theorem scanList_first (compileI : Str → Option (Str → Bool)) (body : Str) :
    ∀ (l1 : List Str) (p : Str) (l2 : List Str) (t : Str → Bool),
      compileI p = some t → t body = true →
      (∀ q ∈ l1, ∀ t2, compileI q = some t2 → t2 body = false) →
      scanList compileI body (l1 ++ p :: l2) = some p := by
  intro l1
  induction l1 with
  | nil =>
    intro p l2 t hp ht _
    simp [scanList, hp, ht]
  | cons q l1' ih =>
    intro p l2 t hp ht hprev
    cases hcq : compileI q with
    | none =>
      simp only [List.cons_append, scanList, hcq]
      exact ih p l2 t hp ht (fun r hr => hprev r (List.mem_cons_of_mem q hr))
    | some t2 =>
      have hf : t2 body = false := hprev q (List.mem_cons_self q l1') t2 hcq
      simp only [List.cons_append, scanList, hcq, hf, Bool.false_eq_true, if_false]
      exact ih p l2 t hp ht (fun r hr => hprev r (List.mem_cons_of_mem q hr))

/-- The last truthy finish reason, when present, is non-empty. -/
theorem specLastFinish_ne_empty (items : List SSEItem) (s : Str)
    (h : specLastFinish items = some s) : s.isEmpty = false := by
  unfold specLastFinish at h
  generalize hl : items.reverse = l at h
  clear hl
  induction l with
  | nil => simp [List.findSome?] at h
  | cons a as ih =>
    simp only [List.findSome?] at h
    cases hf : finishOf a with
    | none => rw [hf] at h; exact ih h
    | some x =>
      simp only [hf, Option.some.injEq] at h
      subst h
      exact finishOf_ne_empty a _ hf

/-- C3: a rate-limiter call with stored minute count m and hour count h
denies with the minute-limit reason when m is at or above the minute
ceiling (checked first, store untouched); otherwise denies with the
hour-limit reason when h is at or above the hour ceiling (store untouched);
otherwise allows and increments both counters by exactly one. -/
theorem C3_rate_limit_contract (store : Store) (agentId b1 b2 : Str)
    (perMin perHour : Nat) :
    (perMin ≤ jsCounter (Store.get store
        (str ("rate:") ++ agentId ++ str (":min:") ++ b1)) →
      checkRateLimit store agentId b1 b2 perMin perHour =
        (some (natStr perMin ++ str ("/min")), store))
  ∧ (jsCounter (Store.get store
        (str ("rate:") ++ agentId ++ str (":min:") ++ b1)) < perMin →
     perHour ≤ jsCounter (Store.get store
        (str ("rate:") ++ agentId ++ str (":hr:") ++ b2)) →
      checkRateLimit store agentId b1 b2 perMin perHour =
        (some (natStr perHour ++ str ("/hr")), store))
  ∧ (jsCounter (Store.get store
        (str ("rate:") ++ agentId ++ str (":min:") ++ b1)) < perMin →
     jsCounter (Store.get store
        (str ("rate:") ++ agentId ++ str (":hr:") ++ b2)) < perHour →
      (checkRateLimit store agentId b1 b2 perMin perHour).1 = none ∧
      Store.get (checkRateLimit store agentId b1 b2 perMin perHour).2
          (str ("rate:") ++ agentId ++ str (":min:") ++ b1) =
        some (natStr (jsCounter (Store.get store
          (str ("rate:") ++ agentId ++ str (":min:") ++ b1)) + 1)) ∧
      Store.get (checkRateLimit store agentId b1 b2 perMin perHour).2
          (str ("rate:") ++ agentId ++ str (":hr:") ++ b2) =
        some (natStr (jsCounter (Store.get store
          (str ("rate:") ++ agentId ++ str (":hr:") ++ b2)) + 1))) := by
  refine ⟨?_, ?_, ?_⟩
  · intro h
    simp only [checkRateLimit]
    rw [if_pos h]
  · intro h1 h2
    simp only [checkRateLimit]
    rw [if_neg (Nat.not_le.mpr h1), if_pos h2]
  · intro h1 h2
    have hn1 := Nat.not_le.mpr h1
    have hn2 := Nat.not_le.mpr h2
    simp only [checkRateLimit]
    rw [if_neg hn1, if_neg hn2]
    refine ⟨rfl, ?_, ?_⟩
    · rw [Store.get_put_ne _ _ _ _ (rate_keys_ne agentId b1 b2)]
      exact Store.get_put_same _ _ _
    · exact Store.get_put_same _ _ _

/-- C3 witness: with both counters free the call is allowed and both
counters read back incremented to 1; with the minute counter at the
ceiling the call is denied with the minute reason and the store unchanged. -/
theorem C3_rate_limit_contract_witness :
    ((checkRateLimit [] (str ("a")) (str ("b1")) (str ("b2")) 30 500).1 = none ∧
     Store.get (checkRateLimit [] (str ("a")) (str ("b1")) (str ("b2")) 30 500).2
       (str ("rate:a:min:b1")) = some (str ("1"))) ∧
    checkRateLimit [(str ("rate:a:min:b1"), str ("30"))]
        (str ("a")) (str ("b1")) (str ("b2")) 30 500 =
      (some (str ("30/min")), [(str ("rate:a:min:b1"), str ("30"))]) := by
  have hall := (C3_rate_limit_contract [] (str ("a")) (str ("b1")) (str ("b2"))
    30 500).2.2 (by decide) (by decide)
  have hden := (C3_rate_limit_contract [(str ("rate:a:min:b1"), str ("30"))]
    (str ("a")) (str ("b1")) (str ("b2")) 30 500).1 (by decide)
  exact ⟨⟨hall.1, hall.2.1⟩, hden⟩

/-- C4: inbound patterns are evaluated in configured order and the first
matching one is returned; a pattern whose compilation fails is skipped
without aborting the scan; an unparsable pattern configuration yields no
match and the handler can then never reject the request as
secret-detected (fail-open on misconfiguration). -/
theorem C4_inbound_scan (compileI : Str → Option (Str → Bool)) (body : Str) :
    (scanSecrets compileI PatConfig.malformed body = none)
  ∧ (∀ bad rest, compileI bad = none →
      scanSecrets compileI (PatConfig.ok (bad :: rest)) body =
        scanSecrets compileI (PatConfig.ok rest) body)
  ∧ (∀ (l1 : List Str) (p : Str) (l2 : List Str) (t : Str → Bool),
      compileI p = some t → t body = true →
      (∀ q ∈ l1, ∀ t2, compileI q = some t2 → t2 body = false) →
      scanSecrets compileI (PatConfig.ok (l1 ++ p :: l2)) body = some p)
  ∧ (∀ (env : Env) (store : Store) (req : Request) (iso : Str),
      env.scanPatterns = PatConfig.malformed →
      ∀ pat, (handleFetch compileI env store req iso).outcome ≠
        Outcome.secretDetected pat) := by
  refine ⟨rfl, ?_, ?_, ?_⟩
  · intro bad rest hbad
    simp [scanSecrets, scanList, hbad]
  · intro l1 p l2 t hp ht hprev
    simpa [scanSecrets] using scanList_first compileI body l1 p l2 t hp ht hprev
  · intro env store req iso hcfg pat
    simp only [handleFetch, hcfg]
    split
    · simp
    · split
      · simp
      · split
        · simp
        · split
          · simp
          · split
            · simp
            · split
              · simp
              · simp [scanSecrets, scanList]

/-- C4 witness: with a compile oracle failing on one pattern and testing by
prefix otherwise, the third configured pattern is the first match and is
returned; and with a malformed configuration the scan reports nothing. -/
theorem C4_inbound_scan_witness :
    scanSecrets
        (fun p => if p = str ("zz") then none
                  else some (fun b => isPre p b))
        (PatConfig.ok [str ("zz"), str ("qq"), str ("hi")])
        (str ("hi there")) = some (str ("hi")) ∧
    scanSecrets
        (fun p => if p = str ("zz") then none
                  else some (fun b => isPre p b))
        PatConfig.malformed (str ("hi there")) = none := by
  constructor
  · exact (C4_inbound_scan
      (fun p => if p = str ("zz") then none else some (fun b => isPre p b))
      (str ("hi there"))).2.2.1
      [str ("zz"), str ("qq")] (str ("hi")) [] (fun b => isPre (str ("hi")) b)
      rfl (by decide)
      (by
        intro q hq t2 hct
        simp only [List.mem_cons, List.not_mem_nil, or_false] at hq
        rcases hq with rfl | rfl
        · exact Option.noConfusion hct
        · have h2 : (some (fun b => isPre (str ("qq")) b) :
              Option (Str → Bool)) = some t2 := hct
          have h3 := Option.some.inj h2
          rw [← h3]
          decide)
  · exact (C4_inbound_scan
      (fun p => if p = str ("zz") then none else some (fun b => isPre p b))
      (str ("hi there"))).1

/-- C10: the exact-match layer's secret list only admits a named credential
entry when the configured value is at least 8 characters long (so an entry
with a known-key name always has length at least 8 and is exactly the
configured value), admits every non-empty honeypot value in slots 1..10,
and every exact-match tag names a listed secret — hence a short named
credential, which contributes no entry, is never detected or redacted by
this layer. -/
theorem C10_known_secret_bounds (env : Env) :
    (∀ s ∈ getKnownSecrets env, s.name ∈ KNOWN_SECRET_KEYS →
      8 ≤ s.value.length ∧ Env.lookupKey env s.name = some s.value)
  ∧ (∀ k v, 1 ≤ k → k ≤ 10 → env.honeypot k = some v → v ≠ [] →
      (⟨str ("HONEYPOT_") ++ natStr k, v⟩ : Secret) ∈ getKnownSecrets env)
  ∧ (∀ content tag, tag ∈ (exactLayer (getKnownSecrets env) content).2 →
      ∃ s ∈ getKnownSecrets env, tag = str ("known:") ++ s.name) := by
  refine ⟨?_, ?_, fun content tag h => exactLayer_tags_mem _ content tag h⟩
  · intro s hs hname
    rcases List.mem_append.mp hs with hmem | hmem
    · rcases List.mem_filterMap.mp hmem with ⟨key, _, hf⟩
      cases hlk : Env.lookupKey env key with
      | none =>
        rw [hlk] at hf
        exact Option.noConfusion hf
      | some v =>
        rw [hlk] at hf
        have hf2 : (if v ≠ [] ∧ 8 ≤ v.length
            then some (⟨key, v⟩ : Secret) else none) = some s := hf
        by_cases hcond : v ≠ [] ∧ 8 ≤ v.length
        · rw [if_pos hcond] at hf2
          have hsv : (⟨key, v⟩ : Secret) = s := Option.some.inj hf2
          rw [← hsv]
          exact ⟨hcond.2, hlk⟩
        · rw [if_neg hcond] at hf2
          exact Option.noConfusion hf2
    · rcases List.mem_filterMap.mp hmem with ⟨i, _, hf⟩
      cases hhp : env.honeypot (i + 1) with
      | none =>
        rw [hhp] at hf
        exact Option.noConfusion hf
      | some v =>
        rw [hhp] at hf
        have hf2 : (if v ≠ []
            then some (⟨str ("HONEYPOT_") ++ natStr (i + 1), v⟩ : Secret)
            else none) = some s := hf
        by_cases hne : v ≠ []
        · rw [if_pos hne] at hf2
          have hsv : (⟨str ("HONEYPOT_") ++ natStr (i + 1), v⟩ : Secret) = s :=
            Option.some.inj hf2
          rw [← hsv] at hname
          exact absurd hname (hp_name_notin (i + 1))
        · rw [if_neg hne] at hf2
          exact Option.noConfusion hf2
  · intro k v hk1 hk10 hkv hne
    apply List.mem_append_right
    apply List.mem_filterMap.mpr
    refine ⟨k - 1, List.mem_range.mpr (by omega), ?_⟩
    have hk : k - 1 + 1 = k := by omega
    rw [hk, hkv]
    show (if v ≠ []
        then some (⟨str ("HONEYPOT_") ++ natStr k, v⟩ : Secret)
        else none) = _
    rw [if_pos hne]

/-- C10 witness: a 7-character PROXY_KEY yields no entry while a 2-character
honeypot is included, and the single reported tag names the honeypot. -/
theorem C10_known_secret_bounds_witness :
    ((⟨str ("HONEYPOT_2"), str ("hp")⟩ : Secret) ∈ getKnownSecrets
      { PROXY_KEY := some (str ("short77")),
        honeypot := fun i => if i = 2 then some (str ("hp")) else none }) ∧
    getKnownSecrets
      { PROXY_KEY := some (str ("short77")),
        honeypot := fun i => if i = 2 then some (str ("hp")) else none } =
      [⟨str ("HONEYPOT_2"), str ("hp")⟩] := by
  constructor
  · exact (C10_known_secret_bounds
      { PROXY_KEY := some (str ("short77")),
        honeypot := fun i => if i = 2 then some (str ("hp")) else none }).2.1
      2 (str ("hp")) (by decide) (by decide) (by decide) (by decide)
  · decide

/-- C8: applying the outbound scanner to a body whose choice texts contain
no configured secret literal and match no built-in pattern reports no
matches and passes the original body through unchanged, so redaction is
idempotent on its own fully-redacted output. -/
theorem C8_idempotent_scan (env : Env) (choices : List (Option Str))
    (h : choices.all (choiceClean env) = true) :
    scanChoices (getKnownSecrets env) RESPONSE_PATTERNS choices =
      (choices, []) ∧
    scanResponseContent env (some choices) = ScanResult.passthrough :=
  ⟨scanChoices_clean env choices h, scan_clean_pass env choices h⟩

/-- C8 witness: an already-redacted response body under a configured
16-character key is passed through unchanged with no matches. -/
theorem C8_idempotent_scan_witness :
    scanResponseContent { PROXY_KEY := some (str ("SECRET-KEY-12345")) }
        (some [some (str ("ok [REDACTED-BY-UFW] done")), none]) =
      ScanResult.passthrough :=
  (C8_idempotent_scan { PROXY_KEY := some (str ("SECRET-KEY-12345")) }
    [some (str ("ok [REDACTED-BY-UFW] done")), none] (by decide)).2

/-- C5: per choice, the reported tags are the exact-match tags followed by
the pattern tags computed on the exact layer's output (the pattern layer is
not short-circuited by an exact hit); the tag list is a subsequence of the
configured detection order; the head pattern is reported whenever it
matches the exact-layer output, even after an exact hit; and a response
with nothing to match is passed through as the original body with no
re-serialization. -/
theorem C5_outbound_both_layers :
    (∀ (secrets : List Secret) (pats : List RePat) (t : Str),
      (scanChoice secrets pats t).2 =
        (exactLayer secrets t).2 ++
          (patternLayer pats (exactLayer secrets t).1).2)
  ∧ (∀ (secrets : List Secret) (pats : List RePat) (t : Str),
      ((scanChoice secrets pats t).2).Sublist
        (secrets.map exactTag ++ pats.map patTag))
  ∧ (∀ (secrets : List Secret) (p : RePat) (ps : List RePat) (t : Str),
      rtest p.items (exactLayer secrets t).1 = true →
      patTag p ∈ (scanChoice secrets (p :: ps) t).2)
  ∧ (∀ (env : Env) (choices : List (Option Str)),
      choices.all (choiceClean env) = true →
      scanResponseContent env (some choices) = ScanResult.passthrough) := by
  refine ⟨fun secrets pats t => rfl, ?_, ?_,
    fun env choices h => scan_clean_pass env choices h⟩
  · intro secrets pats t
    exact (exactLayer_tags_sub secrets t).append
      (patternLayer_tags_sub pats (exactLayer secrets t).1)
  · intro secrets p ps t h
    show patTag p ∈ (exactLayer secrets t).2 ++
      (patternLayer (p :: ps) (exactLayer secrets t).1).2
    apply List.mem_append_right
    simp only [patternLayer, h, if_true]
    exact List.mem_cons_self _ _

/-- C5 witness: with one configured secret and a following sk- style token,
the exact layer hits and the head built-in pattern still matches the
exact-layer output and is reported alongside the known-secret tag. -/
theorem C5_outbound_both_layers_witness :
    patTag ⟨str ("sk-[a-zA-Z0-9_-]\x7b20,\x7d"),
        [RItem.lit (str ("sk-")), RItem.cls isWordDash 20 none]⟩ ∈
      (scanChoice [⟨str ("PROXY_KEY"), str ("MYSECRETVALUE")⟩]
        RESPONSE_PATTERNS
        (str ("x MYSECRETVALUE y sk-abcdefghij0123456789"))).2 :=
  (C5_outbound_both_layers).2.2.1
    [⟨str ("PROXY_KEY"), str ("MYSECRETVALUE")⟩]
    ⟨str ("sk-[a-zA-Z0-9_-]\x7b20,\x7d"),
      [RItem.lit (str ("sk-")), RItem.cls isWordDash 20 none]⟩
    RESPONSE_PATTERNS.tail
    (str ("x MYSECRETVALUE y sk-abcdefghij0123456789"))
    (by decide)

/-- C6: on the four-frame example stream the assembler produces role
assistant, content Hello, finish reason stop; in general it produces
exactly one choice carrying the order-preserving concatenation of the delta
contents and the last non-empty finish reason seen (defaulting to stop),
and an undecodable frame anywhere in the stream is skipped without effect. -/
theorem C6_sse_assembly :
    ((assembleSSEResponse
        [SSEItem.frame (some { delta := some { role := some (str ("assistant")) } }),
         SSEItem.frame (some { delta := some { content := some (str ("Hel")) } }),
         SSEItem.frame (some { delta := some { content := some (str ("lo")) } }),
         SSEItem.frame (some { finish := some (str ("stop")) })]).choices =
      [{ index := 0, role := str ("assistant"), content := str ("Hello"),
         finish_reason := str ("stop") }])
  ∧ (∀ items : List SSEItem, (assembleSSEResponse items).choices.length = 1)
  ∧ (∀ items : List SSEItem, ∀ c ∈ (assembleSSEResponse items).choices,
      c.content = specContents items ∧
      c.finish_reason = (specLastFinish items).getD (str ("stop")))
  ∧ (∀ l1 l2 : List SSEItem,
      assembleSSEResponse (l1 ++ SSEItem.frame none :: l2) =
        assembleSSEResponse (l1 ++ l2)) := by
  refine ⟨by decide, fun items => rfl, ?_, ?_⟩
  · intro items c hc
    have hcontent := foldl_stepSSE_content items initState
    have hfinish := foldl_stepSSE_finish items initState
    simp only [assembleSSEResponse, List.mem_singleton] at hc
    subst hc
    constructor
    · simpa [initState] using hcontent
    · have h0 := foldl_stepSSE_finish items initState
      rw [show initState.finish = none from rfl] at h0
      cases hlf : specLastFinish items with
      | none =>
        simp only [hlf] at h0
        rw [h0]
        simp [hlf]
      | some f =>
        simp only [hlf] at h0
        rw [h0]
        have hne := specLastFinish_ne_empty items f hlf
        have hne2 : f ≠ [] := by
          intro hh
          rw [hh] at hne
          simp at hne
        simp [hlf, hne, hne2]
  · intro l1 l2
    have hstep : ∀ st : AsmState, stepSSE st (SSEItem.frame none) = st :=
      fun st => rfl
    simp [assembleSSEResponse, List.foldl_append, List.foldl_cons, hstep]

/-- C6 witness: the single choice assembled from the example stream carries
the concatenated content and the last finish reason of those frames. -/
theorem C6_sse_assembly_witness :
    ({ index := 0, role := str ("assistant"), content := str ("Hello"),
       finish_reason := str ("stop") } : AsmChoice).content =
      specContents
        [SSEItem.frame (some { delta := some { role := some (str ("assistant")) } }),
         SSEItem.frame (some { delta := some { content := some (str ("Hel")) } }),
         SSEItem.frame (some { delta := some { content := some (str ("lo")) } }),
         SSEItem.frame (some { finish := some (str ("stop")) })] ∧
    ({ index := 0, role := str ("assistant"), content := str ("Hello"),
       finish_reason := str ("stop") } : AsmChoice).finish_reason =
      (specLastFinish
        [SSEItem.frame (some { delta := some { role := some (str ("assistant")) } }),
         SSEItem.frame (some { delta := some { content := some (str ("Hel")) } }),
         SSEItem.frame (some { delta := some { content := some (str ("lo")) } }),
         SSEItem.frame (some { finish := some (str ("stop")) })]).getD
        (str ("stop")) :=
  (C6_sse_assembly).2.2.1
    [SSEItem.frame (some { delta := some { role := some (str ("assistant")) } }),
     SSEItem.frame (some { delta := some { content := some (str ("Hel")) } }),
     SSEItem.frame (some { delta := some { content := some (str ("lo")) } }),
     SSEItem.frame (some { finish := some (str ("stop")) })]
    { index := 0, role := str ("assistant"), content := str ("Hello"),
      finish_reason := str ("stop") }
    (by decide)

/-- C1 counterexample: with the honeypot value `-UFW]x` configured, the
response text `a-UFW]xxb` is scanned, tagged, and rewritten to
`a[REDACTED-BY-UFW]xb` — which still contains the configured literal
`-UFW]x` (split across the substituted marker and the following text), so
the delivered redacted text is not free of every occurrence of the secret. -/
theorem C1_counterexample :
    scanResponseContent
        { honeypot := fun i => if i = 1 then some (str ("-UFW]x")) else none }
        (some [some (str ("a-UFW]xxb"))]) =
      ScanResult.redacted [some (str ("a[REDACTED-BY-UFW]xb"))]
        [str ("known:HONEYPOT_1")] ∧
    occurs (str ("-UFW]x")) (str ("a[REDACTED-BY-UFW]xb")) = true := by
  constructor
  · decide
  · decide

/-- C1 (amended): when the environment configures exactly one secret whose
non-empty value occurs in the single choice text and no built-in pattern
matches the redacted text, the scanner reports the known-secret tag and
returns the marker-joined sequence of the maximal literal-free segments of
the original text: joining the segments with the literal reconstructs the
original byte-for-byte (unrelated segments untouched) and no segment
contains the literal — the literal can only survive by overlapping the
boundary of a substituted marker, as in the counterexample. -/
theorem C1_redaction_amended (env : Env) (nm v c : Str)
    (hsec : getKnownSecrets env = [⟨nm, v⟩])
    (hv : v ≠ [])
    (hocc : occurs v c = true)
    (hpat : patsClean RESPONSE_PATTERNS (joinWith marker (splitOnL v c)) = true) :
    scanResponseContent env (some [some c]) =
      ScanResult.redacted [some (joinWith marker (splitOnL v c))]
        [str ("known:") ++ nm] ∧
    joinWith v (splitOnL v c) = c ∧
    (∀ p ∈ splitOnL v c, occurs v p = false) := by
  refine ⟨?_, joinWith_splitOnL v c, splitOnL_clean v c hv⟩
  have he : exactLayer [⟨nm, v⟩] c =
      (joinWith marker (splitOnL v c), [str ("known:") ++ nm]) := by
    simp [exactLayer, hocc]
  have hq := patternLayer_clean RESPONSE_PATTERNS _ hpat
  simp [scanResponseContent, scanChoices, scanChoice, hsec, he, hq]

/-- C1 witness: a 12-character PROXY_KEY occurring once in the choice text
is replaced by the marker, the segments around it are untouched, and the
known-secret tag is reported. -/
theorem C1_redaction_amended_witness :
    scanResponseContent { PROXY_KEY := some (str ("SECRETKEY123")) }
        (some [some (str ("xxSECRETKEY123yy"))]) =
      ScanResult.redacted [some (str ("xx[REDACTED-BY-UFW]yy"))]
        [str ("known:PROXY_KEY")] := by
  have h := C1_redaction_amended { PROXY_KEY := some (str ("SECRETKEY123")) }
    (str ("PROXY_KEY")) (str ("SECRETKEY123")) (str ("xxSECRETKEY123yy"))
    (by decide) (by decide) (by decide) (by decide)
  exact h.1

/-- C2: on a known provider route, reading the disabled sentinel makes the
handler reject with the kill-switch outcome and record the block, with no
auth check, rate-limit check, inbound scan, credential read or upstream
call in its effect trace and the store untouched, regardless of the token;
reading any other value (or none) lets traffic flow past the kill switch. -/
theorem C2_kill_switch (compileI : Str → Option (Str → Bool)) (env : Env)
    (store : Store) (req : Request) (iso : Str) (pname : Str)
    (rest : List Str) (prov : Provider)
    (hadmin : isPre (str ("/admin/")) req.pathname = false)
    (hsegs : routeSegs req = pname :: rest)
    (hprov : PROVIDERS pname = some prov) :
    (Store.get store (str ("ENABLED")) = some (str ("false")) →
      handleFetch compileI env store req iso =
        ⟨Outcome.killSwitch, store,
         [Effect.kvGet (str ("ENABLED")),
          Effect.logBlock (agentIdOf req) pname (str ("kill_switch"))]⟩)
  ∧ (Store.get store (str ("ENABLED")) ≠ some (str ("false")) →
      (handleFetch compileI env store req iso).outcome ≠ Outcome.killSwitch) := by
  constructor
  · intro hkill
    simp only [handleFetch, hadmin, Bool.false_eq_true, if_false, hsegs, hprov]
    rw [if_pos hkill]
  · intro hflow
    simp only [handleFetch, hadmin, Bool.false_eq_true, if_false, hsegs, hprov]
    rw [if_neg hflow]
    by_cases hauth : (proxyTokenOf req = [] ∨ env.PROXY_KEY ≠ some (proxyTokenOf req))
    · rw [if_pos hauth]
      simp
    · rw [if_neg hauth]
      rcases hrl : checkRateLimit store (agentIdOf req) (iso.take 16) (iso.take 13)
          (jsParseIntOrDefault env.RATE_LIMIT_PER_MIN 30)
          (jsParseIntOrDefault env.RATE_LIMIT_PER_HOUR 500) with ⟨ro, store2⟩
      cases ro with
      | some reason => simp [hrl]
      | none =>
        cases hsr : (if bodyOf req ≠ []
            then scanSecrets compileI env.scanPatterns (bodyOf req)
            else none) with
        | some pat => simp [hrl, hsr]
        | none => simp [hrl, hsr]

/-- C2 witness: with the flag stored as false a complete request to a known
route is rejected with the kill-switch outcome, the block trace entry, and
nothing else; with an empty store the same request is not kill-switched. -/
theorem C2_kill_switch_witness :
    (handleFetch (fun _ => none) { PROXY_KEY := some (str ("tok12345")) }
        [(str ("ENABLED"), str ("false"))]
        { pathname := str ("/anthropic/v1/messages"), search := [],
          method := str ("POST"),
          authorization := some (str ("Bearer tok12345")),
          xAgentId := none, rawBody := str ("hi") }
        (str ("2026-01-02T03:04:05.000Z")) =
      ⟨Outcome.killSwitch, [(str ("ENABLED"), str ("false"))],
       [Effect.kvGet (str ("ENABLED")),
        Effect.logBlock (str ("default")) (str ("anthropic"))
          (str ("kill_switch"))]⟩) ∧
    ((handleFetch (fun _ => none) { PROXY_KEY := some (str ("tok12345")) } []
        { pathname := str ("/anthropic/v1/messages"), search := [],
          method := str ("POST"),
          authorization := some (str ("Bearer tok12345")),
          xAgentId := none, rawBody := str ("hi") }
        (str ("2026-01-02T03:04:05.000Z"))).outcome ≠ Outcome.killSwitch) := by
  constructor
  · exact (C2_kill_switch (fun _ => none) { PROXY_KEY := some (str ("tok12345")) }
      [(str ("ENABLED"), str ("false"))]
      { pathname := str ("/anthropic/v1/messages"), search := [],
        method := str ("POST"),
        authorization := some (str ("Bearer tok12345")),
        xAgentId := none, rawBody := str ("hi") }
      (str ("2026-01-02T03:04:05.000Z"))
      (str ("anthropic")) [str ("v1"), str ("messages")]
      ⟨str ("https://api.anthropic.com"), str ("x-api-key"), none,
        str ("ANTHROPIC_API_KEY")⟩
      (by decide) (by decide) (by decide)).1 (by decide)
  · exact (C2_kill_switch (fun _ => none) { PROXY_KEY := some (str ("tok12345")) }
      []
      { pathname := str ("/anthropic/v1/messages"), search := [],
        method := str ("POST"),
        authorization := some (str ("Bearer tok12345")),
        xAgentId := none, rawBody := str ("hi") }
      (str ("2026-01-02T03:04:05.000Z"))
      (str ("anthropic")) [str ("v1"), str ("messages")]
      ⟨str ("https://api.anthropic.com"), str ("x-api-key"), none,
        str ("ANTHROPIC_API_KEY")⟩
      (by decide) (by decide) (by decide)).2 (by decide)

/-- C9: on a known provider route with the kill switch not tripped, a
missing or mismatched bearer token makes the handler reject with the
authorization outcome before the rate limiter runs: the store is returned
untouched (no counter increments) and the effect trace records only the
flag read and the auth comparison — in particular no rate-limit check and
no block-log record. -/
theorem C9_auth_before_rate (compileI : Str → Option (Str → Bool)) (env : Env)
    (store : Store) (req : Request) (iso : Str) (pname : Str)
    (rest : List Str) (prov : Provider)
    (hadmin : isPre (str ("/admin/")) req.pathname = false)
    (hsegs : routeSegs req = pname :: rest)
    (hprov : PROVIDERS pname = some prov)
    (hflag : Store.get store (str ("ENABLED")) ≠ some (str ("false")))
    (hbad : proxyTokenOf req = [] ∨ env.PROXY_KEY ≠ some (proxyTokenOf req)) :
    handleFetch compileI env store req iso =
      ⟨Outcome.unauthorized, store,
       [Effect.kvGet (str ("ENABLED")), Effect.authChecked]⟩ := by
  simp only [handleFetch, hadmin, Bool.false_eq_true, if_false, hsegs, hprov]
  rw [if_neg hflag, if_pos hbad]

/-- C9 witness: a wrong bearer token on a known route with no kill switch
yields the authorization outcome with the store unchanged and only the
flag-read and auth-check effects. -/
theorem C9_auth_before_rate_witness :
    handleFetch (fun _ => none) { PROXY_KEY := some (str ("tok12345")) } []
        { pathname := str ("/openai/v1/chat/completions"), search := [],
          method := str ("POST"),
          authorization := some (str ("Bearer WRONG")),
          xAgentId := some (str ("agent7")), rawBody := str ("hello") }
        (str ("2026-01-02T03:04:05.000Z")) =
      ⟨Outcome.unauthorized, [],
       [Effect.kvGet (str ("ENABLED")), Effect.authChecked]⟩ :=
  C9_auth_before_rate (fun _ => none) { PROXY_KEY := some (str ("tok12345")) }
    []
    { pathname := str ("/openai/v1/chat/completions"), search := [],
      method := str ("POST"),
      authorization := some (str ("Bearer WRONG")),
      xAgentId := some (str ("agent7")), rawBody := str ("hello") }
    (str ("2026-01-02T03:04:05.000Z"))
    (str ("openai")) [str ("v1"), str ("chat"), str ("completions")]
    ⟨str ("https://api.openai.com"), str ("authorization"),
      some (str ("Bearer ")), str ("OPENAI_API_KEY")⟩
    (by decide) (by decide) (by decide) (by decide) (by decide)

/-- C7 counterexample: the unknown-route error surfaced by the handler is a
JSON body carrying only an error message — its `code` member is absent —
so not every surfaced error is a body of shape error-plus-code. -/
theorem C7_counterexample :
    (handleFetch (fun _ => none) {} []
        { pathname := str ("/nope"), search := [], method := str ("GET"),
          authorization := none, xAgentId := none, rawBody := [] }
        (str ("t"))).outcome = Outcome.unknownRoute ∧
    Outcome.errorResponse Outcome.unknownRoute =
      some (404,
        ⟨str ("Unknown route. Use /anthropic/*, /openai/*, /openrouter/*, /deepseek/*, or /kimi/*"),
         none, none⟩) := by
  constructor
  · decide
  · decide

/-- C7 (amended): every error the handler surfaces is a JSON body carrying
an error message with the status fixed by its cause — 404 for an unknown
route and 401 for a missing or wrong token, both without a `code` member,
503 with code KILL_SWITCH, 429 with code RATE_LIMITED, and 403 with code
SECRET_DETECTED. -/
theorem C7_error_status_shape (compileI : Str → Option (Str → Bool))
    (env : Env) (store : Store) (req : Request) (iso : Str)
    (status : Nat) (b : ErrBody)
    (h : Outcome.errorResponse
        (handleFetch compileI env store req iso).outcome = some (status, b)) :
    (status = 404 ∧ b.code = none ∧
      b.error = str ("Unknown route. Use /anthropic/*, /openai/*, /openrouter/*, /deepseek/*, or /kimi/*"))
  ∨ (status = 401 ∧ b.code = none ∧
      b.error = str ("Unauthorized. Provide Authorization: Bearer <PROXY_KEY>"))
  ∨ (status = 503 ∧ b.code = some (str ("KILL_SWITCH")) ∧
      b.error = str ("UFW kill switch is active. All requests are blocked."))
  ∨ (status = 429 ∧ b.code = some (str ("RATE_LIMITED")))
  ∨ (status = 403 ∧ b.code = some (str ("SECRET_DETECTED")) ∧
      b.error = str ("Request blocked: potential secret detected in request body")) := by
  cases ho : (handleFetch compileI env store req iso).outcome with
  | adminHandled => rw [ho] at h; simp [Outcome.errorResponse] at h
  | unknownRoute =>
    rw [ho] at h
    simp only [Outcome.errorResponse, Option.some.injEq, Prod.mk.injEq] at h
    left
    exact ⟨h.1.symm, by rw [← h.2], by rw [← h.2]⟩
  | killSwitch =>
    rw [ho] at h
    simp only [Outcome.errorResponse, Option.some.injEq, Prod.mk.injEq] at h
    right; right; left
    exact ⟨h.1.symm, by rw [← h.2], by rw [← h.2]⟩
  | unauthorized =>
    rw [ho] at h
    simp only [Outcome.errorResponse, Option.some.injEq, Prod.mk.injEq] at h
    right; left
    exact ⟨h.1.symm, by rw [← h.2], by rw [← h.2]⟩
  | rateLimited r =>
    rw [ho] at h
    simp only [Outcome.errorResponse, Option.some.injEq, Prod.mk.injEq] at h
    right; right; right; left
    exact ⟨h.1.symm, by rw [← h.2]⟩
  | secretDetected p =>
    rw [ho] at h
    simp only [Outcome.errorResponse, Option.some.injEq, Prod.mk.injEq] at h
    right; right; right; right
    exact ⟨h.1.symm, by rw [← h.2], by rw [← h.2]⟩
  | forwarded u bo => rw [ho] at h; simp [Outcome.errorResponse] at h

/-- C7 witness: the kill-switch rejection of a concrete request surfaces
status 503 with the KILL_SWITCH code. -/
theorem C7_error_status_shape_witness :
    (503 = 404 ∧ (some (str ("KILL_SWITCH")) : Option Str) = none ∧
      str ("UFW kill switch is active. All requests are blocked.") =
        str ("Unknown route. Use /anthropic/*, /openai/*, /openrouter/*, /deepseek/*, or /kimi/*"))
  ∨ (503 = 401 ∧ (some (str ("KILL_SWITCH")) : Option Str) = none ∧
      str ("UFW kill switch is active. All requests are blocked.") =
        str ("Unauthorized. Provide Authorization: Bearer <PROXY_KEY>"))
  ∨ (503 = 503 ∧ (some (str ("KILL_SWITCH")) : Option Str) = some (str ("KILL_SWITCH")) ∧
      str ("UFW kill switch is active. All requests are blocked.") =
        str ("UFW kill switch is active. All requests are blocked."))
  ∨ (503 = 429 ∧ (some (str ("KILL_SWITCH")) : Option Str) = some (str ("RATE_LIMITED")))
  ∨ (503 = 403 ∧ (some (str ("KILL_SWITCH")) : Option Str) = some (str ("SECRET_DETECTED")) ∧
      str ("UFW kill switch is active. All requests are blocked.") =
        str ("Request blocked: potential secret detected in request body")) :=
  C7_error_status_shape (fun _ => none) {} [(str ("ENABLED"), str ("false"))]
    { pathname := str ("/kimi/v1/chat/completions"), search := [],
      method := str ("POST"), authorization := none, xAgentId := none,
      rawBody := str ("x") }
    (str ("t")) 503
    ⟨str ("UFW kill switch is active. All requests are blocked."),
      some (str ("KILL_SWITCH")), none⟩
    (by decide)

end UFW
